import Mathlib

/-!
# Verification of the Pickles Benchmark simulation core

Shallow embedding of the simulation-and-control engine of `src/App.tsx`
(an N-body CPU stress benchmark) together with proofs of the spec's
testable properties.

Scalars are modelled as rationals (`ℚ`); the transcendental functions
used by the code (`Math.sqrt`, `Math.sin`, `Math.cos`, `Math.tan`,
`Math.PI`) are passed in as an abstract `MathOps` record, since none of
the verified properties depend on their values.  Timestamps
(`Date.now()` milliseconds) are modelled as integers.  JavaScript's
`Math.random()` draws are modelled as explicitly injected streams of
rational values.
-/

namespace Pickles

/-- Type `Vector3` from `src/App.tsx`: three scalar components. -/
structure Vector3 where
  x : ℚ
  y : ℚ
  z : ℚ
  deriving DecidableEq, Repr

/-- Type `Body3D` from `src/App.tsx`: position, velocity, mass, rendered size. -/
structure Body3D where
  pos : Vector3
  vel : Vector3
  mass : ℚ
  size : ℚ
  deriving DecidableEq, Repr

/-- The transcendental functions the physics kernel calls
(`Math.sqrt`, `Math.sin`, `Math.cos`, `Math.tan`) and `Math.PI`,
abstracted as parameters of the model. -/
structure MathOps where
  sqrt : ℚ → ℚ
  sin : ℚ → ℚ
  cos : ℚ → ℚ
  tan : ℚ → ℚ
  pi : ℚ

/-- Default body used as the out-of-range fallback of list indexing
(the code never indexes out of range). -/
def body0 : Body3D := ⟨⟨0, 0, 0⟩, ⟨0, 0, 0⟩, 1, 1⟩

/-- Read `bodies[i]` (JavaScript array read, with a fallback default). -/
def getB : List Body3D → ℕ → Body3D
  | [], _ => body0
  | b :: _, 0 => b
  | _ :: l, n + 1 => getB l n

/-- Write `bodies[i] = b` (JavaScript array write; no-op out of range). -/
def setB : List Body3D → ℕ → Body3D → List Body3D
  | [], _, _ => []
  | _ :: l, 0, b => b :: l
  | a :: l, n + 1, b => a :: setB l n b

/-! ## The integrator (`updatePhysics`, `src/App.tsx` lines 61–121) -/

/-- The stride of the pairwise loop:
`len > 8000 ? Math.ceil(len / 4000) : 1` (line 68).
`Math.ceil (len / 4000)` on a natural number is `(len + 3999) / 4000`. -/
def strideOf (len : ℕ) : ℕ :=
  if len > 8000 then (len + 3999) / 4000 else 1

/-- The pairwise force vector the inner loop applies (lines 84–97):
displacement, softened squared distance (`+ 100`), Newtonian-style
magnitude with `G = 0.5`, plus the transcendental "stress" term scaled
by `0.00001`, added uniformly to each axis. -/
def pairForce (ops : MathOps) (A B : Body3D) : Vector3 :=
  let dx := B.pos.x - A.pos.x
  let dy := B.pos.y - A.pos.y
  let dz := B.pos.z - A.pos.z
  let distSq := dx * dx + dy * dy + dz * dz + 100
  let dist := ops.sqrt distSq
  let force := (0.5 * A.mass * B.mass) / distSq
  let stress := ops.sin (dx * 0.01) * ops.cos (dy * 0.01) + ops.tan (dz * 0.001)
  ⟨dx / dist * force + stress * 0.00001,
   dy / dist * force + stress * 0.00001,
   dz / dist * force + stress * 0.00001⟩

/-- One pairwise interaction (lines 82–105): the force is applied to
body `i`'s velocity divided by its mass, and subtracted from body `j`'s
velocity divided by its mass. -/
def applyPair (ops : MathOps) (bodies : List Body3D) (i j : ℕ) : List Body3D :=
  let A := getB bodies i
  let B := getB bodies j
  let f := pairForce ops A B
  let A2 := { A with vel := ⟨A.vel.x + f.x / A.mass, A.vel.y + f.y / A.mass,
                             A.vel.z + f.z / A.mass⟩ }
  let B2 := { B with vel := ⟨B.vel.x - f.x / B.mass, B.vel.y - f.y / B.mass,
                             B.vel.z - f.z / B.mass⟩ }
  setB (setB bodies i A2) j B2

/-- The center attraction (lines 73–78): `vel -= pos * 0.00001`. -/
def applyCenter (b : Body3D) : Body3D :=
  { b with vel := ⟨b.vel.x - b.pos.x * 0.00001,
                   b.vel.y - b.pos.y * 0.00001,
                   b.vel.z - b.pos.z * 0.00001⟩ }

/-- Position integration (lines 110–113): `pos += vel * dt`. -/
def moveBody (dt : ℚ) (b : Body3D) : Body3D :=
  { b with pos := ⟨b.pos.x + b.vel.x * dt,
                   b.pos.y + b.vel.y * dt,
                   b.pos.z + b.vel.z * dt⟩ }

/-- Soft bounds (lines 115–118): each axis whose (new) position exceeds
4000 in absolute value has its velocity multiplied by `-0.8`. -/
def bounceVel (p v : Vector3) : Vector3 :=
  ⟨if |p.x| > 4000 then v.x * (-0.8) else v.x,
   if |p.y| > 4000 then v.y * (-0.8) else v.y,
   if |p.z| > 4000 then v.z * (-0.8) else v.z⟩

/-- Integration followed by the soft-bounds reflection (lines 110–118). -/
def settleBody (dt : ℚ) (b : Body3D) : Body3D :=
  let b1 := moveBody dt b
  { b1 with vel := bounceVel b1.pos b1.vel }

/-- The inner pairwise loop (lines 81–108):
`for (let j = i + 1; j < len; j += stride)`, returning the updated
store and the evaluation counter.  Structural recursion on a fuel
argument; since the loop variable advances by `s ≥ 1` each iteration,
fuel `len - j` suffices (proved below). -/
def innerLoop (ops : MathOps) (s len i : ℕ) :
    ℕ → ℕ → List Body3D → ℕ → List Body3D × ℕ
  | 0, _, bodies, calcs => (bodies, calcs)
  | fuel + 1, j, bodies, calcs =>
    if j < len then
      innerLoop ops s len i fuel (j + s) (applyPair ops bodies i j) (calcs + 1)
    else (bodies, calcs)

/-- The outer loop over bodies (lines 70–119): center attraction, the
pairwise inner loop, then integration and soft bounds for body `i`. -/
def outerLoop (ops : MathOps) (dt : ℚ) (s len : ℕ) :
    ℕ → ℕ → List Body3D → ℕ → List Body3D × ℕ
  | 0, _, bodies, calcs => (bodies, calcs)
  | fuel + 1, i, bodies, calcs =>
    if i < len then
      let bodies1 := setB bodies i (applyCenter (getB bodies i))
      let r := innerLoop ops s len i (len - (i + 1)) (i + 1) bodies1 calcs
      let bodies3 := setB r.1 i (settleBody dt (getB r.1 i))
      outerLoop ops dt s len fuel (i + 1) bodies3 r.2
    else (bodies, calcs)

/-- Function `updatePhysics(dt)` (lines 61–121): runs the strided pairwise
update over the whole store and returns the updated store together
with the number of pairwise force evaluations performed. -/
def updatePhysics (ops : MathOps) (dt : ℚ) (bodies : List Body3D) :
    List Body3D × ℕ :=
  let len := bodies.length
  outerLoop ops dt (strideOf len) len len 0 bodies 0

/-! ## Counting the pairs the strided loop visits -/

/-- Pure count of the iterations of the inner loop
`for (let j = j0; j < len; j += s)`. -/
def innerCount (s len : ℕ) : ℕ → ℕ → ℕ
  | 0, _ => 0
  | fuel + 1, j => if j < len then innerCount s len fuel (j + s) + 1 else 0

/-- The set of inner indices the strided loop visits for outer index
`i`: the `j` in `(i+1 .. n-1)` of the form `i + 1 + k·s` (for `s ≥ 1`
the membership test used here, `i + 1 ≤ j` and `s ∣ j - (i+1)`, is
exactly that arithmetic progression). -/
def visitedInner (n s i : ℕ) : ℕ :=
  ((Finset.range n).filter (fun j => i + 1 ≤ j ∧ (j - (i + 1)) % s = 0)).card

/-- Total number of index pairs visited by the strided double loop on a
store of `n` bodies with stride `s`. -/
def visitedPairs (n s : ℕ) : ℕ :=
  ∑ i ∈ Finset.range n, visitedInner n s i

/-! ## The run controller (`src/App.tsx` lines 26–279)

The mutable state the frame loop and the React refs/state hold, with
display-only mirrors (`setFps`, `setTimer`, `setProgress`,
`setParticleCount`, `setHistory`) omitted: they copy values already
present here for presentation purposes only. -/

/-- Type `DataPoint` from `src/App.tsx`: one telemetry history sample. -/
structure DataPoint where
  time : ℚ
  fps : ℚ
  particles : ℕ
  deriving DecidableEq, Repr

/-- The run controller state: React state/refs (`isRunning`,
`showResults`, `historyRef`, `bodiesRef`, `totalCalcsRef`, `finalScore`,
`avgFps`, `peakParticles`) together with the frame-loop closure
variables (`startTime`, `endTime`, `lastMetricTime`, `frameCount`). -/
structure RunState where
  running : Bool
  showResults : Bool
  history : List DataPoint
  bodies : List Body3D
  totalCalcs : ℕ
  startTime : ℤ
  endTime : ℤ
  lastMetricTime : ℤ
  frameCount : ℕ
  finalScore : ℤ
  avgFps : ℤ
  peakParticles : ℕ

/-- Configuration constants imported from `./constants`
(`TEST_DURATION_MS`). -/
structure Config where
  durationMs : ℤ

/-- The per-frame inputs of one tick: the wall clock (`Date.now()`),
whether the canvas context is available (line 159), and the
`Math.random()` draws consumed by any spawns this tick
(`rng k d` = draw number `d` for spawned body number `k`). -/
structure TickIn where
  now : ℤ
  ctxReady : Bool
  rng : ℕ → ℕ → ℚ

/-- One spawned body (lines 141–148), from six `Math.random()` draws
`u 0 .. u 5`. -/
def spawnBody (ops : MathOps) (u : ℕ → ℚ) : Body3D :=
  let angle := u 0 * ops.pi * 2
  let r := u 1 * 400
  { pos := ⟨ops.cos angle * r, (u 2 - 0.5) * 200, ops.sin angle * r⟩,
    vel := ⟨ops.sin angle * 3, (u 3 - 0.5) * 2, -(ops.cos angle) * 3⟩,
    mass := u 4 * 3 + 1,
    size := u 5 * 4 + 2 }

/-- Function `addParticles(count)` (lines 139–150): appends `count` freshly
spawned bodies to the store. -/
def addParticles (ops : MathOps) (rng : ℕ → ℕ → ℚ) (count : ℕ)
    (bodies : List Body3D) : List Body3D :=
  bodies ++ (List.range count).map (fun k => spawnBody ops (rng k))

/-- The ramp decision (line 188):
`currentFps > 45 ? 1000 : (currentFps < 15 ? 100 : 400)`. -/
def rampAmount (currentFps : ℚ) : ℕ :=
  if currentFps > 45 then 1000 else if currentFps < 15 then 100 else 400

/-- The average-fps computation in `finish` (line 271):
`data.length > 0 ? data.reduce((acc, curr) => acc + curr.fps, 0) / data.length : 0`. -/
def averageFps (data : List DataPoint) : ℚ :=
  if data.length > 0 then (data.map DataPoint.fps).sum / (data.length : ℚ) else 0

/-- Function `finish()` (lines 265–279): stops the loop, computes the average
fps over the recorded history, the peak population, and
`Math.floor((totalCalcs / 100000) * (avg / 60))`. -/
def finish (st : RunState) : RunState :=
  let avg := averageFps st.history
  { st with
    running := false
    showResults := true
    avgFps := round avg
    peakParticles := st.bodies.length
    finalScore := ⌊((st.totalCalcs : ℚ) / 100000) * (avg / 60)⌋ }

/-- The load-ramping / telemetry section of the frame loop
(lines 174–193): if more than 500 ms have passed since the last sample,
compute the measured fps, append a history sample (with the
pre-ramp population), add `rampAmount` new bodies, and reset the
sample clock and frame counter. -/
def sampleStep (ops : MathOps) (st : RunState) (inp : TickIn) : RunState :=
  if inp.now > st.lastMetricTime + 500 then
    let currentFps : ℚ := ((st.frameCount : ℚ) * 1000) / ((inp.now - st.lastMetricTime : ℤ) : ℚ)
    let elapsed : ℤ := inp.now - st.startTime
    { st with
      history := st.history ++ [⟨(elapsed : ℚ) / 1000, currentFps, st.bodies.length⟩]
      bodies := addParticles ops inp.rng (rampAmount currentFps) st.bodies
      lastMetricTime := inp.now
      frameCount := 0 }
  else st

/-- The physics section of the frame loop (lines 200–204):
increment the frame counter, run one integration step with `dt = 0.5`,
and accumulate the returned evaluation count into the total. -/
def physStep (ops : MathOps) (st : RunState) : RunState :=
  let st2 := { st with frameCount := st.frameCount + 1 }
  let pr := updatePhysics ops 0.5 st2.bodies
  { st2 with bodies := pr.1, totalCalcs := st2.totalCalcs + pr.2 }

/-- One frame of the loop (lines 158–260): skip the frame if the canvas
context is unavailable; otherwise run the sampling/ramping section,
then the termination check (`now >= endTime`, line 195) which finishes
the run, and otherwise the physics section.  (The subsequent canvas
rendering section, lines 206–258, does not touch this state.) -/
def tick (ops : MathOps) (st : RunState) (inp : TickIn) : RunState :=
  if inp.ctxReady = false then st
  else
    let st1 := sampleStep ops st inp
    if inp.now ≥ st.endTime then finish st1
    else physStep ops st1

/-- A sequence of frames. -/
def runTicks (ops : MathOps) (st : RunState) (inps : List TickIn) : RunState :=
  inps.foldl (tick ops) st

/-- The inputs of `startBenchmark` (lines 123–136): the wall clock and
the availability of the canvas element and of its 2D context, plus the
random draws for the initial population. -/
structure StartIn where
  now : ℤ
  canvas : Bool
  ctx : Bool
  rng : ℕ → ℕ → ℚ

/-- Function `startBenchmark()` (lines 123–156): a silent no-op if already
running; if the canvas or its context is missing, reports an error
(`console.error("Canvas context not ready")`, modelled by the returned
flag) and leaves the state untouched; otherwise resets history, store
and counters, seeds 2500 bodies, and records the end time.  The
returned Bool is `true` exactly when the error was reported. -/
def startBenchmark (ops : MathOps) (cfg : Config) (st : RunState)
    (inp : StartIn) : RunState × Bool :=
  if st.running then (st, false)
  else if !(inp.canvas && inp.ctx) then (st, true)
  else
    ({ running := true
       showResults := false
       history := []
       bodies := addParticles ops inp.rng 2500 []
       totalCalcs := 0
       startTime := inp.now
       endTime := inp.now + cfg.durationMs
       lastMetricTime := inp.now
       frameCount := 0
       finalScore := st.finalScore
       avgFps := st.avgFps
       peakParticles := st.peakParticles }, false)

/-! ## Concrete fixtures used to instantiate the theorems -/

/-- A concrete, fully computable instantiation of the transcendental
functions, used only to evaluate the model at concrete inputs (none of
the verified properties depend on the choice). -/
def ops0 : MathOps := ⟨id, id, id, id, 0⟩

/-- A concrete configuration (60-second run). -/
def cfg0 : Config := ⟨60000⟩

/-- A body at rest at the origin with unit mass. -/
def bodyA0 : Body3D := ⟨⟨0, 0, 0⟩, ⟨0, 0, 0⟩, 1, 1⟩

/-- A second body, with mass 2. -/
def bodyB0 : Body3D := ⟨⟨0, 0, 0⟩, ⟨0, 0, 0⟩, 2, 3⟩

/-- A concrete idle state. -/
def stIdle : RunState :=
  { running := false, showResults := false, history := [], bodies := []
    totalCalcs := 0, startTime := 0, endTime := 0, lastMetricTime := 0
    frameCount := 0, finalScore := 0, avgFps := 0, peakParticles := 0 }

/-- A concrete running state whose run is over (`endTime` passed) and
whose store holds two bodies, used to exhibit the actual order of the
termination check and the integration step within a tick. -/
def stOver : RunState :=
  { running := true, showResults := false, history := [], bodies := [bodyA0, bodyB0]
    totalCalcs := 0, startTime := 0, endTime := 1000, lastMetricTime := 900
    frameCount := 7, finalScore := 0, avgFps := 0, peakParticles := 0 }

/-- The frame input arriving at `stOver`: the clock has reached the end
time but the sampling interval has not elapsed. -/
def inpOver : TickIn := ⟨1000, true, fun _ _ => 0⟩

/-- A concrete state carrying `totalInteractionCount = 500000` and one
history sample of 30 fps, realizing the spec's scoring example. -/
def stScore : RunState :=
  { running := true, showResults := false, history := [⟨1, 30, 2500⟩]
    bodies := [], totalCalcs := 500000, startTime := 0, endTime := 1000
    lastMetricTime := 0, frameCount := 0, finalScore := 0, avgFps := 0
    peakParticles := 0 }

/-- A start input with the canvas attached but its 2D context missing. -/
def inpNoCtx : StartIn := ⟨0, true, false, fun _ _ => 0⟩

/-- A frame input arriving at `stOver` in mid-run (before the end
time, sampling interval not yet elapsed). -/
def inpMid : TickIn := ⟨950, true, fun _ _ => 0⟩

/-! ## List-indexing lemmas -/

@[simp] theorem length_setB (l : List Body3D) (n : ℕ) (b : Body3D) :
    (setB l n b).length = l.length := by
  induction l generalizing n with
  | nil => rfl
  | cons a l ih => cases n with
    | zero => rfl
    | succ n => simpa [setB] using ih n

theorem getB_setB_eq (l : List Body3D) (n : ℕ) (b : Body3D) (h : n < l.length) :
    getB (setB l n b) n = b := by
  induction l generalizing n with
  | nil => simp at h
  | cons a l ih => cases n with
    | zero => rfl
    | succ n => exact ih n (by simpa using h)

theorem getB_setB_ne (l : List Body3D) (n m : ℕ) (b : Body3D) (h : m ≠ n) :
    getB (setB l n b) m = getB l m := by
  induction l generalizing n m with
  | nil => rfl
  | cons a l ih =>
    cases n with
    | zero => cases m with
      | zero => exact absurd rfl h
      | succ m => rfl
    | succ n => cases m with
      | zero => rfl
      | succ m => exact ih n m (fun hmn => h (by omega))

/-! ## Claim C3: the ramp decision -/

/-- Claim C3: the ramp decision maps the measured fps to a number of
bodies to add using strict comparisons: above 45 fps it adds 1000,
below 15 it adds 100, and every other value — including exactly 45 and
exactly 15 — adds 400; the decision is always strictly positive, so the
controller only ever adds. -/
theorem ramp_decision_spec :
    (∀ f : ℚ, 45 < f → rampAmount f = 1000) ∧
    (∀ f : ℚ, f < 15 → rampAmount f = 100) ∧
    (∀ f : ℚ, 15 ≤ f → f ≤ 45 → rampAmount f = 400) ∧
    rampAmount 45 = 400 ∧ rampAmount 15 = 400 ∧
    (∀ f : ℚ, 0 < rampAmount f) := by
  refine ⟨fun f h => ?_, fun f h => ?_, fun f h1 h2 => ?_, ?_, ?_, fun f => ?_⟩ <;>
    simp only [rampAmount] <;> split_ifs <;> first | rfl | omega | linarith

/-- Witness for C3: the three buckets and both boundary values at
concrete inputs. -/
theorem ramp_decision_spec_witness :
    rampAmount 50 = 1000 ∧ rampAmount 10 = 100 ∧ rampAmount 30 = 400 ∧
    rampAmount 45 = 400 ∧ rampAmount 15 = 400 :=
  ⟨ramp_decision_spec.1 50 (by norm_num),
   ramp_decision_spec.2.1 10 (by norm_num),
   ramp_decision_spec.2.2.1 30 (by norm_num) (by norm_num),
   ramp_decision_spec.2.2.2.1,
   ramp_decision_spec.2.2.2.2.1⟩

/-! ## Claim C1: the final score -/

theorem finish_finalScore (st : RunState) :
    (finish st).finalScore =
      ⌊((st.totalCalcs : ℚ) / 100000) * (averageFps st.history / 60)⌋ := rfl

/-- Claim C1: at the `Running → Finished` transition the final score is
`floor((totalInteractionCount / 100000) * (averageFps / 60))`, where
`averageFps` is the mean of the recorded fps samples; in particular an
accumulated count of 500000 with an average of 30 fps scores 2. -/
theorem final_score_spec :
    (∀ st : RunState, (finish st).finalScore =
      ⌊((st.totalCalcs : ℚ) / 100000) * (averageFps st.history / 60)⌋) ∧
    (∀ st : RunState, st.totalCalcs = 500000 → averageFps st.history = 30 →
      (finish st).finalScore = 2) := by
  refine ⟨finish_finalScore, fun st h1 h2 => ?_⟩
  rw [finish_finalScore, h1, h2]
  norm_num

/-- Witness for C1: the concrete state `stScore` (count 500000, one
30-fps sample) scores exactly 2. -/
theorem final_score_spec_witness : (finish stScore).finalScore = 2 :=
  final_score_spec.2 stScore rfl (by norm_num [averageFps, stScore])

/-! ## Claim C7: the average fps at the finish transition -/

/-- Claim C7: the average fps computed at the `Running → Finished`
transition is the arithmetic mean of the fps values of all recorded
history samples, and is exactly 0 on an empty history, so that the
finish computation (and in particular the final score) is well defined
with no division by zero observable to the caller. -/
theorem average_fps_spec :
    (∀ data : List DataPoint, data ≠ [] →
      averageFps data = (data.map DataPoint.fps).sum / (data.length : ℚ)) ∧
    averageFps [] = 0 ∧
    (∀ st : RunState, st.history = [] →
      (finish st).avgFps = 0 ∧ (finish st).finalScore = 0) := by
  refine ⟨fun data h => ?_, rfl, fun st h => ?_⟩
  · rw [averageFps, if_pos]
    simpa using List.length_pos.2 h
  · constructor
    · show round (averageFps st.history) = 0
      rw [h]; norm_num [averageFps]
    · rw [finish_finalScore, h]
      norm_num [averageFps]

/-- Witness for C7: a singleton history averages to its sample and the
concrete idle state (empty history) finishes with average 0 and score 0. -/
theorem average_fps_spec_witness :
    averageFps [⟨1, 30, 2500⟩] = (30 : ℚ) / 1 ∧
    (finish stIdle).avgFps = 0 ∧ (finish stIdle).finalScore = 0 :=
  ⟨by simpa using average_fps_spec.1 [⟨1, 30, 2500⟩] (by simp),
   (average_fps_spec.2.2 stIdle rfl).1, (average_fps_spec.2.2 stIdle rfl).2⟩

/-! ## Claim C8: the start guards -/

/-- Claim C8: `startBenchmark` is a guarded no-op on failure: when the
machine is not running and the render surface is not ready (canvas or
context missing) it reports an error and leaves the state — body store,
history and accumulators included — completely unchanged, so it remains
idle; when the machine is already running it is likewise a no-op with
no mutation (and no error is reported). -/
theorem start_guard_spec :
    ∀ (ops : MathOps) (cfg : Config) (st : RunState) (inp : StartIn),
      (st.running = false → (inp.canvas = false ∨ inp.ctx = false) →
        startBenchmark ops cfg st inp = (st, true)) ∧
      (st.running = true → startBenchmark ops cfg st inp = (st, false)) := by
  intro ops cfg st inp
  constructor
  · intro h1 h2
    rw [startBenchmark, if_neg (by simp [h1]), if_pos]
    rcases h2 with h2 | h2 <;> simp [h2]
  · intro h1
    rw [startBenchmark, if_pos h1]

/-- Witness for C8: starting from the concrete idle state with the 2D
context missing reports the error and changes nothing. -/
theorem start_guard_spec_witness :
    startBenchmark ops0 cfg0 stIdle inpNoCtx = (stIdle, true) :=
  (start_guard_spec ops0 cfg0 stIdle inpNoCtx).1 rfl (Or.inr rfl)

/-! ## Claim C5: pairwise momentum antisymmetry -/

/-- Claim C5: for every pairwise interaction the integrator computes
between the bodies at indices `i` and `j`, the velocity delta applied
to body `i` is the exact negative of the delta applied to body `j`
scaled by the mass ratio: `massA * dvA + massB * dvB = 0` holds
componentwise for that single interaction (the centering force and the
stress term are part of the shared force value, not of this balance). -/
theorem pair_momentum_spec :
    ∀ (ops : MathOps) (bodies : List Body3D) (i j : ℕ),
      i ≠ j → i < bodies.length → j < bodies.length →
      (getB bodies i).mass ≠ 0 → (getB bodies j).mass ≠ 0 →
      ((getB bodies i).mass *
          ((getB (applyPair ops bodies i j) i).vel.x - (getB bodies i).vel.x) +
        (getB bodies j).mass *
          ((getB (applyPair ops bodies i j) j).vel.x - (getB bodies j).vel.x) = 0) ∧
      ((getB bodies i).mass *
          ((getB (applyPair ops bodies i j) i).vel.y - (getB bodies i).vel.y) +
        (getB bodies j).mass *
          ((getB (applyPair ops bodies i j) j).vel.y - (getB bodies j).vel.y) = 0) ∧
      ((getB bodies i).mass *
          ((getB (applyPair ops bodies i j) i).vel.z - (getB bodies i).vel.z) +
        (getB bodies j).mass *
          ((getB (applyPair ops bodies i j) j).vel.z - (getB bodies j).vel.z) = 0) := by
  intro ops bodies i j hij hi hj hmi hmj
  have hgi : getB (applyPair ops bodies i j) i =
      { getB bodies i with
        vel := ⟨(getB bodies i).vel.x +
                  (pairForce ops (getB bodies i) (getB bodies j)).x / (getB bodies i).mass,
                (getB bodies i).vel.y +
                  (pairForce ops (getB bodies i) (getB bodies j)).y / (getB bodies i).mass,
                (getB bodies i).vel.z +
                  (pairForce ops (getB bodies i) (getB bodies j)).z / (getB bodies i).mass⟩ } := by
    rw [applyPair, getB_setB_ne _ _ _ _ hij, getB_setB_eq _ _ _ hi]
  have hgj : getB (applyPair ops bodies i j) j =
      { getB bodies j with
        vel := ⟨(getB bodies j).vel.x -
                  (pairForce ops (getB bodies i) (getB bodies j)).x / (getB bodies j).mass,
                (getB bodies j).vel.y -
                  (pairForce ops (getB bodies i) (getB bodies j)).y / (getB bodies j).mass,
                (getB bodies j).vel.z -
                  (pairForce ops (getB bodies i) (getB bodies j)).z / (getB bodies j).mass⟩ } := by
    rw [applyPair, getB_setB_eq _ _ _ (by simpa using hj)]
  rw [hgi, hgj]
  refine ⟨?_, ?_, ?_⟩ <;> · simp only; field_simp; ring

/-- Witness for C5: the interaction between two concrete bodies of
mass 1 and mass 2 balances componentwise. -/
theorem pair_momentum_spec_witness :
    (getB [bodyA0, bodyB0] 0).mass *
        ((getB (applyPair ops0 [bodyA0, bodyB0] 0 1) 0).vel.x -
          (getB [bodyA0, bodyB0] 0).vel.x) +
      (getB [bodyA0, bodyB0] 1).mass *
        ((getB (applyPair ops0 [bodyA0, bodyB0] 0 1) 1).vel.x -
          (getB [bodyA0, bodyB0] 1).vel.x) = 0 :=
  (pair_momentum_spec ops0 [bodyA0, bodyB0] 0 1 (by decide) (by decide) (by decide)
    (by decide) (by decide)).1

/-! ## Length preservation of the integrator -/

theorem applyPair_length (ops : MathOps) (bodies : List Body3D) (i j : ℕ) :
    (applyPair ops bodies i j).length = bodies.length := by
  simp [applyPair]

theorem innerLoop_length (ops : MathOps) (s len i : ℕ) :
    ∀ (fuel j : ℕ) (bodies : List Body3D) (c : ℕ),
      (innerLoop ops s len i fuel j bodies c).1.length = bodies.length := by
  intro fuel
  induction fuel with
  | zero => intro j bodies c; rfl
  | succ fuel ih =>
    intro j bodies c
    rw [innerLoop]
    split
    · rw [ih, applyPair_length]
    · rfl

theorem outerLoop_length (ops : MathOps) (dt : ℚ) (s len : ℕ) :
    ∀ (fuel i : ℕ) (bodies : List Body3D) (c : ℕ),
      (outerLoop ops dt s len fuel i bodies c).1.length = bodies.length := by
  intro fuel
  induction fuel with
  | zero => intro i bodies c; rfl
  | succ fuel ih =>
    intro i bodies c
    rw [outerLoop]
    split
    · rw [ih]
      simp [innerLoop_length]
    · rfl

theorem updatePhysics_length (ops : MathOps) (dt : ℚ) (bodies : List Body3D) :
    (updatePhysics ops dt bodies).1.length = bodies.length :=
  outerLoop_length ops dt _ _ _ _ bodies 0

/-! ## Claim C6: the population never shrinks within a run -/

theorem sampleStep_length (ops : MathOps) (st : RunState) (inp : TickIn) :
    st.bodies.length ≤ (sampleStep ops st inp).bodies.length := by
  rw [sampleStep]
  split
  · simp [addParticles]
  · exact le_refl _

theorem finish_bodies (st : RunState) : (finish st).bodies = st.bodies := rfl

theorem physStep_length (ops : MathOps) (st : RunState) :
    (physStep ops st).bodies.length = st.bodies.length := by
  show (updatePhysics ops 0.5 st.bodies).1.length = st.bodies.length
  exact updatePhysics_length ops 0.5 st.bodies

theorem tick_length_mono (ops : MathOps) (st : RunState) (inp : TickIn) :
    st.bodies.length ≤ (tick ops st inp).bodies.length := by
  rw [tick]
  split
  · exact le_refl _
  · split
    · rw [finish_bodies]; exact sampleStep_length ops st inp
    · rw [physStep_length]; exact sampleStep_length ops st inp

theorem runTicks_length_mono (ops : MathOps) :
    ∀ (inps : List TickIn) (st : RunState),
      st.bodies.length ≤ (runTicks ops st inps).bodies.length := by
  intro inps
  induction inps with
  | nil => intro st; exact le_refl _
  | cons inp rest ih =>
    intro st
    exact le_trans (tick_length_mono ops st inp) (ih (tick ops st inp))

/-- Claim C6: within a single running episode the population is
monotonically non-decreasing: every tick keeps or grows the body
store, so after any two prefixes `pre` and `pre ++ post` of the same
frame sequence, the later population is at least the earlier one. -/
theorem population_monotone_spec :
    (∀ (ops : MathOps) (st : RunState) (inp : TickIn),
      st.bodies.length ≤ (tick ops st inp).bodies.length) ∧
    (∀ (ops : MathOps) (st : RunState) (pre post : List TickIn),
      (runTicks ops st pre).bodies.length ≤
        (runTicks ops st (pre ++ post)).bodies.length) := by
  refine ⟨tick_length_mono, fun ops st pre post => ?_⟩
  simp only [runTicks, List.foldl_append]
  exact runTicks_length_mono ops post (runTicks ops st pre)

/-! ## Claim C2: the evaluation count of one integrator call -/

theorem innerLoop_calcs (ops : MathOps) (s len i : ℕ) :
    ∀ (fuel j : ℕ) (bodies : List Body3D) (c : ℕ),
      (innerLoop ops s len i fuel j bodies c).2 = c + innerCount s len fuel j := by
  intro fuel
  induction fuel with
  | zero => intro j bodies c; rfl
  | succ fuel ih =>
    intro j bodies c
    rw [innerLoop, innerCount]
    split
    · rw [ih]; omega
    · rfl

theorem innerCount_val (s len : ℕ) (hs : 1 ≤ s) :
    ∀ (fuel j : ℕ), len ≤ j + fuel →
      innerCount s len fuel j = (len - j + (s - 1)) / s := by
  intro fuel
  induction fuel with
  | zero =>
    intro j h
    rw [innerCount, show len - j = 0 from by omega, Nat.zero_add]
    exact (Nat.div_eq_of_lt (by omega)).symm
  | succ fuel ih =>
    intro j h
    rw [innerCount]
    split
    · rename_i hj
      rw [ih (j + s) (by omega)]
      by_cases hds : len - j ≤ s
      · rw [show len - (j + s) = 0 from by omega, Nat.zero_add,
          Nat.div_eq_of_lt (by omega), Nat.zero_add]
        exact (Nat.div_eq_of_lt_le (by omega) (by omega)).symm
      · rw [show len - (j + s) = len - j - s from by omega,
          show len - j + (s - 1) = len - j - s + (s - 1) + s from by omega,
          Nat.add_div_right _ (by omega)]
    · rename_i hj
      rw [show len - j = 0 from by omega, Nat.zero_add]
      exact (Nat.div_eq_of_lt (by omega)).symm

theorem outerLoop_calcs (ops : MathOps) (dt : ℚ) (s len : ℕ) :
    ∀ (fuel i : ℕ) (bodies : List Body3D) (c : ℕ),
      (outerLoop ops dt s len fuel i bodies c).2 =
        c + ∑ t ∈ Finset.range fuel,
          (if i + t < len then innerCount s len (len - (i + t + 1)) (i + t + 1) else 0) := by
  intro fuel
  induction fuel with
  | zero => intro i bodies c; simp [outerLoop]
  | succ fuel ih =>
    intro i bodies c
    rw [outerLoop]
    split
    · rename_i hi
      rw [ih, innerLoop_calcs, Finset.sum_range_succ']
      have hshift : ∀ t ∈ Finset.range fuel,
          (if i + (t + 1) < len then
            innerCount s len (len - (i + (t + 1) + 1)) (i + (t + 1) + 1) else 0) =
          (if i + 1 + t < len then
            innerCount s len (len - (i + 1 + t + 1)) (i + 1 + t + 1) else 0) := by
        intro t _
        rw [show i + (t + 1) = i + 1 + t from by omega]
      rw [Finset.sum_congr rfl hshift]
      simp only [Nat.add_zero]
      rw [if_pos hi]
      omega
    · rename_i hi
      rw [Finset.sum_eq_zero (fun t _ => if_neg (by omega))]
      omega

theorem visitedInner_zero (s i : ℕ) : visitedInner 0 s i = 0 := by
  simp [visitedInner]

theorem visitedInner_succ (n s i : ℕ) :
    visitedInner (n + 1) s i =
      visitedInner n s i +
        (if i + 1 ≤ n ∧ (n - (i + 1)) % s = 0 then 1 else 0) := by
  rw [visitedInner, visitedInner, Finset.range_succ, Finset.filter_insert]
  by_cases h : i + 1 ≤ n ∧ (n - (i + 1)) % s = 0
  · rw [if_pos h, if_pos h, Finset.card_insert_of_not_mem (by simp)]
  · rw [if_neg h, if_neg h]
    omega

theorem ceil_div_succ (s d : ℕ) (hs : 1 ≤ s) :
    (d + 1 + (s - 1)) / s = (d + (s - 1)) / s + (if d % s = 0 then 1 else 0) := by
  rw [show d + 1 + (s - 1) = d + (s - 1) + 1 from by omega, Nat.succ_div]
  congr 1
  refine if_congr ?_ rfl rfl
  rw [show d + (s - 1) + 1 = d + s from by omega, Nat.dvd_add_self_right,
    Nat.dvd_iff_mod_eq_zero]

theorem visitedInner_val (s : ℕ) (hs : 1 ≤ s) (i : ℕ) :
    ∀ n, visitedInner n s i = (n - (i + 1) + (s - 1)) / s := by
  intro n
  induction n with
  | zero =>
    rw [visitedInner_zero, Nat.zero_sub, Nat.zero_add]
    exact (Nat.div_eq_of_lt (by omega)).symm
  | succ n ihn =>
    rw [visitedInner_succ, ihn]
    by_cases hin : i + 1 ≤ n
    · rw [show n + 1 - (i + 1) = n - (i + 1) + 1 from by omega,
        ceil_div_succ s (n - (i + 1)) hs]
      by_cases hmod : (n - (i + 1)) % s = 0 <;> simp [hin, hmod]
    · rw [if_neg (fun hc => hin hc.1),
        show n - (i + 1) = 0 from by omega,
        show n + 1 - (i + 1) = 0 from by omega, Nat.add_zero]

theorem strideOf_pos (n : ℕ) : 1 ≤ strideOf n := by
  rw [strideOf]; split
  · omega
  · exact le_refl 1

theorem strideOf_low (n : ℕ) (h : n ≤ 8000) : strideOf n = 1 := by
  rw [strideOf, if_neg (by omega)]

theorem strideOf_high (n : ℕ) (h : 8000 < n) :
    strideOf n = (n + 3999) / 4000 ∧ 3 ≤ strideOf n ∧
      n ≤ 4000 * strideOf n ∧ 4000 * (strideOf n - 1) < n := by
  rw [strideOf, if_pos h]
  omega

theorem updatePhysics_calcs (ops : MathOps) (dt : ℚ) (bodies : List Body3D) :
    (updatePhysics ops dt bodies).2 =
      visitedPairs bodies.length (strideOf bodies.length) := by
  have hs := strideOf_pos bodies.length
  show (outerLoop ops dt (strideOf bodies.length) bodies.length
    bodies.length 0 bodies 0).2 = _
  rw [outerLoop_calcs, visitedPairs, Nat.zero_add]
  refine Finset.sum_congr rfl (fun t ht => ?_)
  rw [Finset.mem_range] at ht
  rw [if_pos (show 0 + t < bodies.length by omega),
    visitedInner_val _ hs, innerCount_val _ _ hs _ _ (by omega)]
  congr 2
  omega

theorem visitedPairs_lt (n s : ℕ) (hs : 2 ≤ s) (hn : 3 ≤ n) :
    visitedPairs n s < n * (n - 1) / 2 := by
  have hs1 : 1 ≤ s := by omega
  have h1 : visitedPairs n s = ∑ i ∈ Finset.range n, (n - 1 - i + (s - 1)) / s := by
    rw [visitedPairs]
    refine Finset.sum_congr rfl (fun i _ => ?_)
    rw [visitedInner_val _ hs1]
    congr 2
    omega
  have h2 : ∑ i ∈ Finset.range n, (n - 1 - i + (s - 1)) / s =
      ∑ i ∈ Finset.range n, (i + (s - 1)) / s :=
    Finset.sum_range_reflect (fun i => (i + (s - 1)) / s) n
  rw [h1, h2, ← Finset.sum_range_id n]
  refine Finset.sum_lt_sum (fun i _ => ?_) ⟨2, Finset.mem_range.2 (by omega), ?_⟩
  · rcases Nat.eq_zero_or_pos i with hi | hi
    · subst hi
      rw [Nat.zero_add, Nat.div_eq_of_lt (by omega)]
    · have hle : i + (s - 1) ≤ s * i + (s - 1) := by
        have h0 : i ≤ s * i := Nat.le_mul_of_pos_left i (show 0 < s by omega)
        omega
      calc (i + (s - 1)) / s ≤ (s * i + (s - 1)) / s := Nat.div_le_div_right hle
        _ = i := by rw [Nat.mul_add_div (by omega), Nat.div_eq_of_lt (by omega),
              Nat.add_zero]
  · have h1 : (s + 1) / s = 1 := by
      apply Nat.div_eq_of_lt_le <;> omega
    rw [show 2 + (s - 1) = s + 1 from by omega, h1]
    omega

theorem sampleStep_totalCalcs (ops : MathOps) (st : RunState) (inp : TickIn) :
    (sampleStep ops st inp).totalCalcs = st.totalCalcs := by
  rw [sampleStep]; split <;> rfl

theorem tick_totalCalcs_run (ops : MathOps) (st : RunState) (inp : TickIn)
    (hc : inp.ctxReady = true) (ht : inp.now < st.endTime) :
    (tick ops st inp).totalCalcs =
      st.totalCalcs + (updatePhysics ops 0.5 (sampleStep ops st inp).bodies).2 := by
  rw [tick, if_neg (by rw [hc]; exact fun h => Bool.noConfusion h), if_neg (by omega)]
  show (sampleStep ops st inp).totalCalcs +
      (updatePhysics ops 0.5 (sampleStep ops st inp).bodies).2 = _
  rw [sampleStep_totalCalcs]

/-- Claim C2: one integrator call on a store of `n` bodies performs
exactly the number of pairwise evaluations the strided loop visits —
for each `i` the count of `j` in `(i+1 .. n-1)` of the form
`i + 1 + k·s` — with stride `s = 1` for `n ≤ 8000` and
`s = ceil(n / 4000)` (the least `s` with `n ≤ 4000·s`) for `n > 8000`;
in particular `s = 1` at `n = 8000`, `s = 4` at `n = 16000`, the count
differs from `n·(n-1)/2` there, and every running tick adds the call's
count to the interaction total. -/
theorem interaction_count_spec :
    (∀ (ops : MathOps) (dt : ℚ) (bodies : List Body3D),
      (updatePhysics ops dt bodies).2 =
        visitedPairs bodies.length (strideOf bodies.length)) ∧
    (∀ n : ℕ, n ≤ 8000 → strideOf n = 1) ∧
    (∀ n : ℕ, 8000 < n →
      n ≤ 4000 * strideOf n ∧ 4000 * (strideOf n - 1) < n) ∧
    strideOf 8000 = 1 ∧ strideOf 16000 = 4 ∧
    visitedPairs 16000 (strideOf 16000) ≠ 16000 * (16000 - 1) / 2 ∧
    (∀ (ops : MathOps) (st : RunState) (inp : TickIn),
      inp.ctxReady = true → inp.now < st.endTime →
      (tick ops st inp).totalCalcs =
        st.totalCalcs + (updatePhysics ops 0.5 (sampleStep ops st inp).bodies).2) := by
  refine ⟨updatePhysics_calcs, strideOf_low,
    fun n h => ⟨(strideOf_high n h).2.2.1, (strideOf_high n h).2.2.2⟩,
    strideOf_low 8000 (le_refl _), ?_, ?_, tick_totalCalcs_run⟩
  · rw [(strideOf_high 16000 (by norm_num)).1]
  · exact Nat.ne_of_lt (visitedPairs_lt 16000 (strideOf 16000)
      (le_trans (by norm_num) (strideOf_high 16000 (by norm_num)).2.1) (by norm_num))

/-- Witness for C2: the count identity on a concrete two-body store,
the stride facts at 7777 and 16000, and the accumulation of the count
on a concrete mid-run tick. -/
theorem interaction_count_spec_witness :
    (updatePhysics ops0 1 [bodyA0, bodyB0]).2 =
      visitedPairs 2 (strideOf 2) ∧
    strideOf 7777 = 1 ∧
    (16000 ≤ 4000 * strideOf 16000 ∧ 4000 * (strideOf 16000 - 1) < 16000) ∧
    (tick ops0 stOver inpMid).totalCalcs =
      stOver.totalCalcs + (updatePhysics ops0 0.5 (sampleStep ops0 stOver inpMid).bodies).2 :=
  ⟨interaction_count_spec.1 ops0 1 [bodyA0, bodyB0],
   interaction_count_spec.2.1 7777 (by norm_num),
   interaction_count_spec.2.2.1 16000 (by norm_num),
   interaction_count_spec.2.2.2.2.2.2 ops0 stOver inpMid rfl (by decide)⟩

/-! ## Claim C10: the integrator is total -/

theorem innerLoop_fuel2 (ops : MathOps) (s len i : ℕ) (hs : 1 ≤ s) :
    ∀ (f1 f2 j : ℕ) (bodies : List Body3D) (c : ℕ),
      len ≤ j + f1 → len ≤ j + f2 →
      innerLoop ops s len i f1 j bodies c = innerLoop ops s len i f2 j bodies c := by
  intro f1
  induction f1 with
  | zero =>
    intro f2 j bodies c h1 h2
    cases f2 with
    | zero => rfl
    | succ f2 =>
      simp only [innerLoop]
      rw [if_neg (by omega)]
  | succ f1 ih =>
    intro f2 j bodies c h1 h2
    by_cases hj : j < len
    · cases f2 with
      | zero => exact absurd h2 (by omega)
      | succ f2 =>
        simp only [innerLoop]
        rw [if_pos hj, if_pos hj]
        exact ih f2 (j + s) _ _ (by omega) (by omega)
    · cases f2 with
      | zero =>
        simp only [innerLoop]
        rw [if_neg hj]
      | succ f2 =>
        simp only [innerLoop]
        rw [if_neg hj, if_neg hj]

theorem innerLoop_fuel (ops : MathOps) (s len i : ℕ) (hs : 1 ≤ s) :
    ∀ (fuel j : ℕ) (bodies : List Body3D) (c : ℕ), len ≤ j + fuel →
      innerLoop ops s len i fuel j bodies c =
        innerLoop ops s len i (len - j) j bodies c :=
  fun fuel j bodies c h =>
    innerLoop_fuel2 ops s len i hs fuel (len - j) j bodies c h (by omega)

/-- Claim C10: the stride is at least 1 for every store size (and is
the ceiling `(n + 3999) / 4000 ≥ 3` above the 8000 threshold), so the
inner pair loop strictly advances: the fuel `len - j` the embedding
allots is exact, making the integrator a total function of the store.
A store of 0 or 1 bodies yields zero pairwise evaluations, while a
single body still receives the centering force, the position
integration and the boundary reflection. -/
theorem integrator_total_spec :
    (∀ n : ℕ, 1 ≤ strideOf n) ∧
    (∀ n : ℕ, 8000 < n → strideOf n = (n + 3999) / 4000 ∧ 3 ≤ strideOf n) ∧
    (∀ (ops : MathOps) (s len i fuel j : ℕ) (bodies : List Body3D) (c : ℕ),
      1 ≤ s → len ≤ j + fuel →
      innerLoop ops s len i fuel j bodies c =
        innerLoop ops s len i (len - j) j bodies c) ∧
    (∀ (ops : MathOps) (dt : ℚ), updatePhysics ops dt [] = ([], 0)) ∧
    (∀ (ops : MathOps) (dt : ℚ) (b : Body3D),
      updatePhysics ops dt [b] = ([settleBody dt (applyCenter b)], 0)) := by
  refine ⟨strideOf_pos,
    fun n h => ⟨(strideOf_high n h).1, (strideOf_high n h).2.1⟩,
    fun ops s len i fuel j bodies c hs h => innerLoop_fuel ops s len i hs fuel j bodies c h,
    fun ops dt => rfl, fun ops dt b => rfl⟩

/-- Witness for C10: the stride bound at 9000, fuel-exactness of a
concrete inner loop, and the one-body store result. -/
theorem integrator_total_spec_witness :
    (strideOf 9000 = (9000 + 3999) / 4000 ∧ 3 ≤ strideOf 9000) ∧
    innerLoop ops0 1 2 0 5 1 [bodyA0, bodyB0] 0 =
      innerLoop ops0 1 2 0 (2 - 1) 1 [bodyA0, bodyB0] 0 ∧
    updatePhysics ops0 1 [bodyA0] = ([settleBody 1 (applyCenter bodyA0)], 0) :=
  ⟨integrator_total_spec.2.1 9000 (by norm_num),
   integrator_total_spec.2.2.1 ops0 1 2 0 5 1 [bodyA0, bodyB0] 0 (by norm_num) (by norm_num),
   integrator_total_spec.2.2.2.2 ops0 1 bodyA0⟩

/-! ## Claim C4: the order of operations within a tick

The claim states that the termination check happens only after the
integration step.  In the code (lines 195–204) the check `now >= endTime`
runs after the sampling section but before the physics section, so a
tick that finishes the run performs no integration step.  The claim is
therefore refuted (`tick_order_cex`) and holds in the amended form
proved by `tick_order_spec`. -/

theorem finish_totalCalcs (st : RunState) : (finish st).totalCalcs = st.totalCalcs := rfl

theorem sampleStep_running (ops : MathOps) (st : RunState) (inp : TickIn) :
    (sampleStep ops st inp).running = st.running := by
  rw [sampleStep]; split <;> rfl

theorem tick_not_ready (ops : MathOps) (st : RunState) (inp : TickIn)
    (hc : inp.ctxReady = false) : tick ops st inp = st := by
  rw [tick, if_pos hc]

theorem tick_finish (ops : MathOps) (st : RunState) (inp : TickIn)
    (hc : inp.ctxReady = true) (ht : inp.now ≥ st.endTime) :
    tick ops st inp = finish (sampleStep ops st inp) := by
  rw [tick, if_neg (by simp [hc]), if_pos ht]

/-- Counterexample for C4: the claim implies that every running tick
with a ready surface accumulates the evaluation count of one
integration step (performed after sampling, before the termination
check) into the interaction total.  At the concrete finishing tick
`stOver`/`inpOver` (two bodies, `now = endTime`, sampling interval not
elapsed) the code instead finishes immediately: the total stays 0
although an integration step on the store would count 1 evaluation. -/
theorem tick_order_cex :
    ¬ (∀ (st : RunState) (inp : TickIn),
        st.running = true → inp.ctxReady = true →
        (tick ops0 st inp).totalCalcs =
          (sampleStep ops0 st inp).totalCalcs +
            (updatePhysics ops0 0.5 (sampleStep ops0 st inp).bodies).2) := by
  intro h
  have h2 := h stOver inpOver rfl rfl
  revert h2
  decide

/-- Claim C4 (amended): within every tick of a running benchmark whose
render surface is ready, the operations occur in this order: first the
sampling check with (if the interval elapsed) the telemetry append and
the ramp growth, then the termination check `now ≥ endTime` — which
transitions to Finished without performing an integration step on that
tick — and only when the run does not finish, one integration step
whose evaluation count is accumulated into the interaction total (and
which acts on the post-ramp store). -/
theorem tick_order_spec :
    ∀ (ops : MathOps) (st : RunState) (inp : TickIn), inp.ctxReady = true →
      (inp.now ≥ st.endTime →
        tick ops st inp = finish (sampleStep ops st inp) ∧
        (tick ops st inp).totalCalcs = st.totalCalcs ∧
        (tick ops st inp).running = false) ∧
      (inp.now < st.endTime →
        (tick ops st inp).totalCalcs =
          st.totalCalcs + (updatePhysics ops 0.5 (sampleStep ops st inp).bodies).2 ∧
        (tick ops st inp).bodies =
          (updatePhysics ops 0.5 (sampleStep ops st inp).bodies).1 ∧
        (tick ops st inp).running = st.running) := by
  intro ops st inp hc
  constructor
  · intro ht
    refine ⟨tick_finish ops st inp hc ht, ?_, ?_⟩
    · rw [tick_finish ops st inp hc ht, finish_totalCalcs, sampleStep_totalCalcs]
    · rw [tick_finish ops st inp hc ht]; rfl
  · intro ht
    have hrun : tick ops st inp = physStep ops (sampleStep ops st inp) := by
      rw [tick, if_neg (by simp [hc]), if_neg (by omega)]
    refine ⟨tick_totalCalcs_run ops st inp hc ht, ?_, ?_⟩
    · rw [hrun]; rfl
    · rw [hrun]
      show (sampleStep ops st inp).running = st.running
      exact sampleStep_running ops st inp

/-- Witness for the amended C4: at the concrete finishing tick the
state finishes with the total unchanged, and at the concrete mid-run
tick the total grows by the integration count. -/
theorem tick_order_spec_witness :
    (tick ops0 stOver inpOver = finish (sampleStep ops0 stOver inpOver) ∧
      (tick ops0 stOver inpOver).totalCalcs = stOver.totalCalcs ∧
      (tick ops0 stOver inpOver).running = false) ∧
    ((tick ops0 stOver inpMid).totalCalcs =
        stOver.totalCalcs + (updatePhysics ops0 0.5 (sampleStep ops0 stOver inpMid).bodies).2 ∧
      (tick ops0 stOver inpMid).bodies =
        (updatePhysics ops0 0.5 (sampleStep ops0 stOver inpMid).bodies).1 ∧
      (tick ops0 stOver inpMid).running = stOver.running) :=
  ⟨(tick_order_spec ops0 stOver inpOver rfl).1 (by decide),
   (tick_order_spec ops0 stOver inpMid rfl).2 (by decide)⟩

/-! ## Claim C9: the frame effect of one integrator call -/

theorem getB_setB (l : List Body3D) (n m : ℕ) (b : Body3D) :
    getB (setB l n b) m = if n = m ∧ n < l.length then b else getB l m := by
  induction l generalizing n m with
  | nil => simp [setB, getB]
  | cons a l ih =>
    cases n with
    | zero => cases m with
      | zero => simp [setB, getB]
      | succ m => simp [setB, getB]
    | succ n => cases m with
      | zero => simp [setB, getB]
      | succ m =>
        simp only [setB, getB, ih]
        by_cases h : n = m ∧ n < l.length
        · rw [if_pos h, if_pos (by simp; omega)]
        · rw [if_neg h, if_neg (by simp; omega)]

theorem body_eq_of_pms (b c : Body3D)
    (h1 : b.pos = c.pos) (h2 : b.mass = c.mass) (h3 : b.size = c.size) :
    b = { c with vel := b.vel } := by
  cases b; cases c
  dsimp only at h1 h2 h3
  subst h1; subst h2; subst h3
  rfl

theorem body_upd_congr (b c : Body3D) (w : Vector3)
    (h1 : b.pos = c.pos) (h2 : b.mass = c.mass) (h3 : b.size = c.size) :
    { b with vel := w } = { c with vel := w } := by
  cases b; cases c
  dsimp only at h1 h2 h3
  subst h1; subst h2; subst h3
  rfl

theorem applyPair_pms (ops : MathOps) (bodies : List Body3D) (i j k : ℕ) :
    (getB (applyPair ops bodies i j) k).pos = (getB bodies k).pos ∧
    (getB (applyPair ops bodies i j) k).mass = (getB bodies k).mass ∧
    (getB (applyPair ops bodies i j) k).size = (getB bodies k).size := by
  simp only [applyPair]
  rw [getB_setB, getB_setB, length_setB]
  split_ifs with h1 h2
  · obtain ⟨rfl, -⟩ := h1
    exact ⟨rfl, rfl, rfl⟩
  · obtain ⟨rfl, -⟩ := h2
    exact ⟨rfl, rfl, rfl⟩
  · exact ⟨rfl, rfl, rfl⟩

theorem applyPair_other (ops : MathOps) (bodies : List Body3D) (i j k : ℕ)
    (hki : k ≠ i) (hkj : k ≠ j) :
    getB (applyPair ops bodies i j) k = getB bodies k := by
  simp only [applyPair]
  rw [getB_setB, getB_setB, length_setB,
    if_neg (fun h => hkj h.1.symm), if_neg (fun h => hki h.1.symm)]

theorem innerLoop_pms (ops : MathOps) (s len i : ℕ) :
    ∀ (fuel j : ℕ) (bodies : List Body3D) (c k : ℕ),
      (getB (innerLoop ops s len i fuel j bodies c).1 k).pos = (getB bodies k).pos ∧
      (getB (innerLoop ops s len i fuel j bodies c).1 k).mass = (getB bodies k).mass ∧
      (getB (innerLoop ops s len i fuel j bodies c).1 k).size = (getB bodies k).size := by
  intro fuel
  induction fuel with
  | zero => exact fun j bodies c k => ⟨rfl, rfl, rfl⟩
  | succ fuel ih =>
    intro j bodies c k
    simp only [innerLoop]
    split
    · obtain ⟨p1, p2, p3⟩ := ih (j + s) (applyPair ops bodies i j) (c + 1) k
      obtain ⟨q1, q2, q3⟩ := applyPair_pms ops bodies i j k
      exact ⟨p1.trans q1, p2.trans q2, p3.trans q3⟩
    · exact ⟨rfl, rfl, rfl⟩

theorem innerLoop_frozen (ops : MathOps) (s len i : ℕ) :
    ∀ (fuel j : ℕ) (bodies : List Body3D) (c k : ℕ), k ≠ i → k < j →
      getB (innerLoop ops s len i fuel j bodies c).1 k = getB bodies k := by
  intro fuel
  induction fuel with
  | zero => exact fun j bodies c k _ _ => rfl
  | succ fuel ih =>
    intro j bodies c k hki hkj
    simp only [innerLoop]
    split
    · rw [ih (j + s) _ _ k hki (by omega),
        applyPair_other ops bodies i j k hki (by omega)]
    · rfl

theorem outerLoop_frozen (ops : MathOps) (dt : ℚ) (s len : ℕ) :
    ∀ (fuel i : ℕ) (bodies : List Body3D) (c k : ℕ), k < i →
      getB (outerLoop ops dt s len fuel i bodies c).1 k = getB bodies k := by
  intro fuel
  induction fuel with
  | zero => exact fun i bodies c k _ => rfl
  | succ fuel ih =>
    intro i bodies c k hk
    simp only [outerLoop]
    split
    · rw [ih (i + 1) _ _ k (by omega),
        getB_setB, if_neg (fun h => absurd h.1 (by omega)),
        innerLoop_frozen ops s len i _ _ _ _ k (by omega) (by omega),
        getB_setB, if_neg (fun h => absurd h.1 (by omega))]
    · rfl

theorem outerLoop_main (ops : MathOps) (dt : ℚ) (s len : ℕ) :
    ∀ (fuel i : ℕ) (bodies : List Body3D) (c k : ℕ),
      bodies.length = len → i ≤ k → k < len → k < i + fuel →
      ∃ w : Vector3,
        getB (outerLoop ops dt s len fuel i bodies c).1 k =
          settleBody dt { getB bodies k with vel := w } := by
  intro fuel
  induction fuel with
  | zero => intro i bodies c k hlen h1 h2 h3; exact absurd h3 (by omega)
  | succ fuel ih =>
    intro i bodies c k hlen h1 h2 h3
    have hi : i < len := by omega
    simp only [outerLoop]
    rw [if_pos hi]
    set B1 := setB bodies i (applyCenter (getB bodies i)) with hB1
    set r := innerLoop ops s len i (len - (i + 1)) (i + 1) B1 c with hr
    have hlenB1 : B1.length = len := by rw [hB1, length_setB]; exact hlen
    have hlenr : r.1.length = len := by rw [hr, innerLoop_length]; exact hlenB1
    have hpms := innerLoop_pms ops s len i (len - (i + 1)) (i + 1) B1 c
    rcases Nat.eq_or_lt_of_le h1 with heq | hlt
    · subst heq
      rw [outerLoop_frozen ops dt s len fuel (i + 1) _ _ i (by omega),
        getB_setB, if_pos ⟨rfl, by rw [hlenr]; omega⟩]
      refine ⟨(getB r.1 i).vel, ?_⟩
      congr 1
      apply body_eq_of_pms
      · rw [(hpms i).1, hB1, getB_setB, if_pos ⟨rfl, by omega⟩]
        rfl
      · rw [(hpms i).2.1, hB1, getB_setB, if_pos ⟨rfl, by omega⟩]
        rfl
      · rw [(hpms i).2.2, hB1, getB_setB, if_pos ⟨rfl, by omega⟩]
        rfl
    · obtain ⟨w, hw⟩ := ih (i + 1) (setB r.1 i (settleBody dt (getB r.1 i))) r.2 k
        (by rw [length_setB]; exact hlenr) hlt h2 (by omega)
      rw [hw]
      refine ⟨w, ?_⟩
      congr 1
      apply body_upd_congr
      · rw [getB_setB, if_neg (fun h => absurd h.1 (by omega)), (hpms k).1,
          hB1, getB_setB, if_neg (fun h => absurd h.1 (by omega))]
      · rw [getB_setB, if_neg (fun h => absurd h.1 (by omega)), (hpms k).2.1,
          hB1, getB_setB, if_neg (fun h => absurd h.1 (by omega))]
      · rw [getB_setB, if_neg (fun h => absurd h.1 (by omega)), (hpms k).2.2,
          hB1, getB_setB, if_neg (fun h => absurd h.1 (by omega))]

/-- Claim C9: one integrator call mutates only position and velocity:
the store keeps exactly the same length (no body added or removed) and
every body of the result is its original body with the position
advanced by exactly one integration step `pos + w·dt` for some
accumulated velocity `w`, the velocity equal to the boundary reflection
of `w` at that new position, and the mass and size unchanged (the
record update in `settleBody dt { original with vel := w }` leaves
`mass` and `size` untouched by construction). -/
theorem frame_effect_spec :
    ∀ (ops : MathOps) (dt : ℚ) (bodies : List Body3D),
      (updatePhysics ops dt bodies).1.length = bodies.length ∧
      ∀ k, k < bodies.length →
        ∃ w : Vector3,
          getB (updatePhysics ops dt bodies).1 k =
            settleBody dt { getB bodies k with vel := w } := by
  intro ops dt bodies
  refine ⟨updatePhysics_length ops dt bodies, fun k hk => ?_⟩
  exact outerLoop_main ops dt (strideOf bodies.length) bodies.length
    bodies.length 0 bodies 0 k rfl (Nat.zero_le k) hk (by omega)

/-- Witness for C9: the one-body store keeps its length and its body is
one integration step applied to the original. -/
theorem frame_effect_spec_witness :
    (updatePhysics ops0 1 [bodyA0]).1.length = 1 ∧
    ∃ w : Vector3,
      getB (updatePhysics ops0 1 [bodyA0]).1 0 =
        settleBody 1 { getB [bodyA0] 0 with vel := w } :=
  ⟨(frame_effect_spec ops0 1 [bodyA0]).1,
   (frame_effect_spec ops0 1 [bodyA0]).2 0 (by norm_num)⟩

end Pickles
